import Mathlib

/-!
Shallow embedding of the `ship` orchestration engine (Python) in Lean 4.

Conventions of the embedding:
* Python strings are Lean `String` (a wrapper around `List Char`); the regex
  tag-scanning done with `re.search`/`re.findall` over the fixed, literal,
  non-greedy patterns of the source is implemented by explicit scanning
  functions with the same leftmost/shortest-match semantics.
* `datetime` values are opaque: they are carried as `String` tokens supplied
  by the caller (`now` parameters); `datetime.now()` at a call site becomes
  the `now` argument of the embedded function.
* The `StateManager`'s task dict (keyed by id, insertion ordered) is a
  `List Task`; dict iteration order is list order.
* Python `dataclass(slots=True)` semantics are modelled faithfully: the
  generated constructor rejects unknown keyword arguments, and attribute
  assignment to a name that is not a declared field raises `AttributeError`.
  Fallible paths therefore return `Except`/`Option String` error components.
-/

namespace Ship

/-! ## String utilities (embedding of the source's `re` usage) -/

/-- `beginsWithC pat s` : does `s` start with `pat`? -/
def beginsWithC : List Char → List Char → Bool
  | [], _ => true
  | _ :: _, [] => false
  | p :: ps, c :: cs => p == c && beginsWithC ps cs

/-- Index of the first occurrence of `pat` in `s`, if any. -/
def strFindC (pat : List Char) : List Char → Option Nat
  | [] => if beginsWithC pat [] then some 0 else none
  | c :: cs =>
    if beginsWithC pat (c :: cs) then some 0
    else (strFindC pat cs).map (· + 1)

/-- First occurrence of `pat` inside `s` (on `String`). -/
def strFindS (pat s : String) : Option Nat := strFindC pat.data s.data

/-- Python `pat in s`. -/
def containsS (pat s : String) : Bool := (strFindS pat s).isSome

/-- Embedded `re.search("<open>(.*?)</close>", s, re.DOTALL)`: content of the
leftmost, shortest match — the text between the first occurrence of `openT`
and the first occurrence of `closeT` after it. -/
def searchTagC (openT closeT s : List Char) : Option (List Char) :=
  match strFindC openT s with
  | none => none
  | some i =>
    let rest := s.drop (i + openT.length)
    match strFindC closeT rest with
    | none => none
    | some j => some (rest.take j)

/-- `searchTagC` on `String`. -/
def searchTag (openT closeT s : String) : Option String :=
  (searchTagC openT.data closeT.data s.data).map (fun l => ⟨l⟩)

/-- Embedded `re.findall`: all non-overlapping leftmost matches, scanning
left to right.  `fuel` bounds the recursion; every round consumes at least
one character when `openT` and `closeT` are nonempty, so `s.length + 1` fuel
computes all matches. -/
def findAllTagAux (openT closeT : List Char) : Nat → List Char → List (List Char)
  | 0, _ => []
  | fuel + 1, s =>
    match strFindC openT s with
    | none => []
    | some i =>
      let rest := s.drop (i + openT.length)
      match strFindC closeT rest with
      | none => []
      | some j =>
        rest.take j :: findAllTagAux openT closeT fuel (rest.drop (j + closeT.length))

/-- All tag contents, on `String`. -/
def findAllTags (openT closeT s : String) : List String :=
  (findAllTagAux openT.data closeT.data (s.data.length + 1) s.data).map (fun l => ⟨l⟩)

/-- Python `str` whitespace (the characters `.strip()` removes). -/
def pyIsSpace (c : Char) : Bool :=
  c == ' ' || c == '\t' || c == '\n' || c == '\r' || c.toNat == 11 || c.toNat == 12

/-- Strip characters satisfying `p` from both ends. -/
def stripC (p : Char → Bool) (s : List Char) : List Char :=
  ((s.dropWhile p).reverse.dropWhile p).reverse

/-- Python `s.strip()`. -/
def stripWS (s : String) : String := ⟨stripC pyIsSpace s.data⟩

/-- Python `s.lower()` (ASCII, which is all the source compares). -/
def lowerS (s : String) : String := ⟨s.data.map Char.toLower⟩

/-- Python `s.split(sep)` for a single-character separator. -/
def splitOnCharAux (sep : Char) : List Char → List Char → List (List Char)
  | [], acc => [acc.reverse]
  | c :: cs, acc =>
    if c == sep then acc.reverse :: splitOnCharAux sep cs []
    else splitOnCharAux sep cs (c :: acc)

/-- `splitOnCharAux` on `String`. -/
def splitOnCharS (sep : Char) (s : String) : List String :=
  (splitOnCharAux sep s.data []).map (fun l => ⟨l⟩)

/-- Python `s.isdigit()` (ASCII digits). -/
def isDigitsS (s : String) : Bool := !s.data.isEmpty && s.data.all (·.isDigit)

/-- Python `int(s)` on a digit string. -/
def natOfDigitsS (s : String) : Nat :=
  s.data.foldl (fun n c => n * 10 + (c.toNat - 48)) 0

/-- Python `s[:n]`. -/
def takeS (n : Nat) (s : String) : String := ⟨s.data.take n⟩

/-! ## Data model (`ship/types_.py`) -/

/-- `TaskStatus` — task execution states. -/
inductive TaskStatus
  | pending
  | running
  | completed
  | failed
deriving DecidableEq, Repr

/-- `TaskStatus.value` (the `str` enum payload). -/
def statusValue : TaskStatus → String
  | .pending => "pending"
  | .running => "running"
  | .completed => "completed"
  | .failed => "failed"

/-- `Task` — exactly the fields of the `@dataclass(slots=True) class Task`
in `ship/types_.py` (note: it has NO `summary` field). -/
structure Task where
  id : String
  description : String
  files : List String
  status : TaskStatus
  created_at : String := ""
  started_at : Option String := none
  completed_at : Option String := none
  retries : Nat := 0
  error : String := ""
  result : String := ""
  session_id : String := ""
  depends_on : List String := []
  followups : List String := []
  worker : String := "auto"
deriving DecidableEq, Repr

/-- `WorkState` — exactly the fields of the dataclass in `ship/types_.py`
(note: it has NO `spec_hash` and NO `override_prompt` field). -/
structure WorkState where
  design_file : String
  goal_text : String
  is_complete : Bool := false
  project_context : String := ""
  execution_mode : String := "parallel"
  started_at : String := ""
  last_updated_at : String := ""
deriving DecidableEq, Repr

/-- `Task.to_dict` JSON values (just enough shape for the serialized fields). -/
inductive JValue
  | s (v : String)
  | n (v : Nat)
  | arr (v : List String)
deriving DecidableEq, Repr

/-- `Task.to_dict` (`ship/types_.py`): the serialized key/value pairs, in
source order; `started_at` / `completed_at` are emitted only when set.
`isoformat()` on the opaque timestamp tokens is the identity. -/
def toDict (t : Task) : List (String × JValue) :=
  [("id", .s t.id),
   ("description", .s t.description),
   ("files", .arr t.files),
   ("status", .s (statusValue t.status)),
   ("created_at", .s t.created_at),
   ("retries", .n t.retries),
   ("error", .s t.error),
   ("result", .s t.result),
   ("session_id", .s t.session_id),
   ("depends_on", .arr t.depends_on),
   ("followups", .arr t.followups),
   ("worker", .s t.worker)]
  ++ (match t.started_at with | some v => [("started_at", JValue.s v)] | none => [])
  ++ (match t.completed_at with | some v => [("completed_at", JValue.s v)] | none => [])

/-- Keys of a loaded task dict. -/
def dictHasKey (d : List (String × JValue)) (k : String) : Bool :=
  d.any (fun kv => kv.1 == k)

/-- Field names of the `Task` dataclass (`ship/types_.py`).  The generated
`__init__` accepts exactly these keyword arguments. -/
def taskFieldNames : List String :=
  ["id", "description", "files", "status", "created_at", "started_at",
   "completed_at", "retries", "error", "result", "session_id", "depends_on",
   "followups", "worker"]

/-- The default-injection step of `StateManager._load` (`ship/state.py`):
missing `retries`, `session_id`, `depends_on`, `followups` and `summary`
keys are filled in before the `Task(**task_data)` construction. -/
def loadInjectDefaults (d : List (String × JValue)) : List (String × JValue) :=
  let d := if dictHasKey d "retries" then d else d ++ [("retries", JValue.n 0)]
  let d := if dictHasKey d "session_id" then d else d ++ [("session_id", JValue.s "")]
  let d := if dictHasKey d "depends_on" then d else d ++ [("depends_on", JValue.arr [])]
  let d := if dictHasKey d "followups" then d else d ++ [("followups", JValue.arr [])]
  if dictHasKey d "summary" then d else d ++ [("summary", JValue.s "")]

/-- One round-trip step of `StateManager._load`: inject defaults, then call
`Task(**task_data)`.  The `dataclass(slots=True)` constructor raises
`TypeError` on any keyword argument that is not a declared field; that
`TypeError` is not in `_load`'s `except (OSError, JSONDecodeError,
ValueError)` clause, so it propagates and aborts the load. -/
def loadTaskFromDict (d : List (String × JValue)) : Except String Task :=
  let d := loadInjectDefaults d
  match d.find? (fun kv => !taskFieldNames.contains kv.1) with
  | some kv =>
    .error ("TypeError: __init__() got an unexpected keyword argument " ++ kv.1)
  | none =>
    let str := fun k => match d.find? (fun kv => kv.1 == k) with
      | some (_, JValue.s v) => v
      | _ => ""
    let num := fun k => match d.find? (fun kv => kv.1 == k) with
      | some (_, JValue.n v) => v
      | _ => 0
    let lst := fun k => match d.find? (fun kv => kv.1 == k) with
      | some (_, JValue.arr v) => v
      | _ => []
    let opt := fun k => match d.find? (fun kv => kv.1 == k) with
      | some (_, JValue.s v) => some v
      | _ => none
    let status := match str "status" with
      | "pending" => some TaskStatus.pending
      | "running" => some TaskStatus.running
      | "completed" => some TaskStatus.completed
      | "failed" => some TaskStatus.failed
      | _ => none
    match status with
    | none => .error "RuntimeError: failed to load tasks"
    | some st =>
      .ok { id := str "id", description := str "description", files := lst "files",
            status := st, created_at := str "created_at",
            started_at := opt "started_at", completed_at := opt "completed_at",
            retries := num "retries", error := str "error", result := str "result",
            session_id := str "session_id", depends_on := lst "depends_on",
            followups := lst "followups", worker := str "worker" }

/-- `StateManager._load` over the whole `tasks.json` list: the first failing
record aborts the load. -/
def loadTasks : List (List (String × JValue)) → Except String (List Task)
  | [] => .ok []
  | d :: ds =>
    match loadTaskFromDict d with
    | .error e => .error e
    | .ok t => (loadTasks ds).map (fun ts => t :: ts)

/-! ## State store operations (`ship/state.py`) -/

/-- `StateManager.init_work` as defined in `ship/state.py`: it takes exactly
`design_file` and `goal_text` and creates the `WorkState` with its dataclass
defaults. -/
def init_work (now design_file goal_text : String) : WorkState :=
  { design_file := design_file, goal_text := goal_text,
    started_at := now, last_updated_at := now }

/-- Parameter names of `StateManager.init_work` (`ship/state.py`). -/
def initWorkParamNames : List String := ["design_file", "goal_text"]

/-- A Python keyword call of `init_work`: any keyword argument outside the
declared parameter list raises `TypeError`. -/
def callInitWork (now : String) (kwargs : List (String × String)) :
    Except String WorkState :=
  match kwargs.find? (fun kv => !initWorkParamNames.contains kv.1) with
  | some kv =>
    .error ("TypeError: init_work() got an unexpected keyword argument " ++ kv.1)
  | none =>
    let get := fun k => ((kwargs.find? (fun kv => kv.1 == k)).map (·.2)).getD ""
    .ok (init_work now (get "design_file") (get "goal_text"))

/-- The `init_work` call made by `_main` (`ship/__main__.py`, which passes
`spec_hash=...` and `override_prompt=...` keyword arguments). -/
def mainInitWorkCall (now design_file combined_goal spec_hash override_prompt : String) :
    Except String WorkState :=
  callInitWork now
    [("design_file", design_file), ("goal_text", combined_goal),
     ("spec_hash", spec_hash), ("override_prompt", override_prompt)]

/-- `StateManager.add_task`: insert only when the id is absent. -/
def add_task (tasks : List Task) (t : Task) : List Task :=
  if tasks.any (fun x => x.id == t.id) then tasks else tasks ++ [t]

/-- The field mutations of `StateManager.update_task` on the matched task,
in source order, when the crashing `summary` assignment is not reached
(`summary == ""` skips it): optional fields, then the `started_at` stamp on a
transition into `running`, then the `completed_at` stamp on a terminal
status. -/
def applyUpdate (now : String) (status : TaskStatus)
    (error result sessionId : String) (followups : List String) (t : Task) : Task :=
  let old := t.status
  let t := { t with status := status }
  let t := if error ≠ "" then { t with error := error } else t
  let t := if result ≠ "" then { t with result := result } else t
  let t := if sessionId ≠ "" then { t with session_id := sessionId } else t
  let t := if followups ≠ [] then { t with followups := followups } else t
  let t := if old ≠ TaskStatus.running ∧ status = TaskStatus.running then
    { t with started_at := some now } else t
  if status = TaskStatus.completed ∨ status = TaskStatus.failed then
    { t with completed_at := some now } else t

/-- The in-memory mutations `update_task` has performed when the `summary`
assignment raises: `status`, then `error` and `result` (the assignments that
precede `task.summary = summary` in the source). -/
def applyUpdateCrashed (status : TaskStatus) (error result : String) (t : Task) : Task :=
  let t := { t with status := status }
  let t := if error ≠ "" then { t with error := error } else t
  if result ≠ "" then { t with result := result } else t

/-- `StateManager.update_task`.  Returns the resulting task list together
with `some msg` when the call raised: the `Task` dataclass of `types_.py` has
no `summary` slot, so a non-empty `summary` argument makes
`task.summary = summary` raise `AttributeError` after the earlier mutations
already happened in memory.  A missing id is a logged no-op. -/
def update_task (now : String) (tasks : List Task) (taskId : String)
    (status : TaskStatus) (error result summaryArg sessionId : String)
    (followups : List String) : List Task × Option String :=
  if tasks.any (fun t => t.id == taskId) then
    if summaryArg = "" then
      (tasks.map (fun t => if t.id == taskId then
        applyUpdate now status error result sessionId followups t else t), none)
    else
      (tasks.map (fun t => if t.id == taskId then
        applyUpdateCrashed status error result t else t),
       some "AttributeError: 'Task' object has no attribute 'summary'")
  else (tasks, none)

/-- `StateManager.retry_task`: `failed → pending` with a retry bump; no-op
when the id is absent. -/
def retry_task (tasks : List Task) (taskId : String) : List Task :=
  if tasks.any (fun t => t.id == taskId) then
    tasks.map (fun t => if t.id == taskId then
      { t with retries := t.retries + 1, status := TaskStatus.pending,
               error := "", started_at := none, completed_at := none }
      else t)
  else tasks

/-- `StateManager.reset_interrupted_tasks`: `running`/`failed → pending`
with retries zeroed. -/
def reset_interrupted_tasks (tasks : List Task) : List Task :=
  tasks.map (fun t =>
    if t.status = TaskStatus.running ∨ t.status = TaskStatus.failed then
      { t with status := TaskStatus.pending, retries := 0, error := "",
               started_at := none, completed_at := none }
    else t)

/-- The cascade error text: "cascade: dependency " plus the first 8
characters of the failed id plus " failed". -/
def cascadeText (failedId : String) : String :=
  "cascade: dependency " ++ takeS 8 failedId ++ " failed"

/-- One pass of `cascade_failure`'s inner `for` loop for a popped id: every
`pending`/`running` task that lists `failedId` in `depends_on` is marked
`failed` with the cascade error and a `completed_at` stamp; the ids of the
newly failed tasks are collected in iteration order. -/
def cascadeMark (now failedId : String) : List Task → List Task × List String
  | [] => ([], [])
  | t :: ts =>
    let rest := cascadeMark now failedId ts
    if t.depends_on.contains failedId ∧
        (t.status = TaskStatus.pending ∨ t.status = TaskStatus.running) then
      ({ t with status := TaskStatus.failed, error := cascadeText failedId,
                completed_at := some now } :: rest.1,
       t.id :: rest.2)
    else (t :: rest.1, rest.2)

/-- The BFS loop of `cascade_failure`: pop an id, mark its direct dependents,
push the newly failed ids.  `fuel` bounds the loop; each marked task leaves
`pending`/`running` permanently, so at most `tasks.length` ids are ever
pushed and `tasks.length + 1` fuel runs the queue dry. -/
def cascadeAux (now : String) : Nat → List String → List Task → List String →
    List Task × List String
  | 0, _, tasks, acc => (tasks, acc)
  | _ + 1, [], tasks, acc => (tasks, acc)
  | fuel + 1, fid :: rest, tasks, acc =>
    let m := cascadeMark now fid tasks
    cascadeAux now fuel (rest ++ m.2) m.1 (acc ++ m.2)

/-- `StateManager.cascade_failure`: returns the final task list and the list
of cascaded ids. -/
def cascade_failure (now : String) (tasks : List Task) (taskId : String) :
    List Task × List String :=
  cascadeAux now (tasks.length + 1) [taskId] tasks []

/-! ## Judge (`ship/judge.py`) -/

/-- `MAX_RETRIES` (`ship/judge.py`). -/
def MAX_RETRIES : Nat := 10

/-- `is_cascade_error` (`ship/judge.py`): error text begins with `cascade:`. -/
def is_cascade_error (e : String) : Bool := beginsWithC "cascade:".data e.data

/-- One iteration of the judge's retry loop body for a snapshot entry `t`:
retries exhausted means cascade, otherwise retry. -/
def judgeFoldStep (now : String) (ts : List Task) (t : Task) : List Task :=
  if t.retries ≥ MAX_RETRIES then (cascade_failure now ts t.id).1
  else retry_task ts t.id

/-- The retry/cascade section of one `Judge.run` tick (`ship/judge.py`,
lines 248-275): snapshot the `failed` tasks that are not adversarial and not
cascade-failed, then for each either cascade (retries exhausted) or retry.
The judge is the only caller of `retry_task`, so the snapshot's `retries`
values are still current when each entry is processed. -/
def judgeRetryCascade (now : String) (advIds : List String) (tasks : List Task) :
    List Task :=
  let retryable := tasks.filter (fun t =>
    t.status == TaskStatus.failed && !advIds.contains t.id &&
      !is_cascade_error t.error)
  retryable.foldl (judgeFoldStep now) tasks

/-! ## Worker (`ship/worker.py`) -/

/-- The `re.search(r"<status>(done|partial)</status>", text)` scan: the
leftmost occurrence of either literal alternative. -/
def findStatusTag : List Char → Option String
  | [] => none
  | c :: cs =>
    if beginsWithC "<status>done</status>".data (c :: cs) then some "done"
    else if beginsWithC "<status>partial</status>".data (c :: cs) then some "partial"
    else findStatusTag cs

/-- `Worker._parse_output`: `(status, followups, summary)`; status defaults
to `"done"` when the tag is absent; followups are the stripped nonempty
`<task>` bodies inside the first `<followups>` block; summary is the first
`<summary>` body, stripped. -/
def parse_output (text : String) : String × List String × String :=
  let status := (findStatusTag text.data).getD "done"
  let fus := match searchTag "<followups>" "</followups>" text with
    | none => []
    | some blk =>
      ((findAllTags "<task>" "</task>" blk).map stripWS).filter (fun d => d ≠ "")
  let summ := ((searchTag "<summary>" "</summary>" text).map stripWS).getD ""
  (status, fus, summ)

/-- The recording step of `Worker._execute` (`ship/worker.py`, lines
106-162 plus the generic `except Exception` handler): parse the LLM result,
optionally re-parse a reformatted reply, then update the store.  A `done`
outcome with a non-empty summary makes `update_task` raise (no `summary`
slot on `Task`); the worker's generic handler then records the task as
`failed` with the exception text. -/
def workerRecord (now : String) (tasks : List Task) (taskId : String)
    (resultText sessionId reformatted : String) : List Task :=
  let p := parse_output resultText
  let p := if sessionId ≠ "" ∧ (p.2.2 = "" ∨ containsS "<status>" resultText = false) ∧
      reformatted ≠ "" then parse_output reformatted else p
  if p.1 = "partial" then
    (update_task now tasks taskId TaskStatus.failed "worker reported partial"
      resultText "" "" p.2.1).1
  else
    match update_task now tasks taskId TaskStatus.completed "" resultText p.2.2
        sessionId [] with
    | (ts, none) => ts
    | (ts, some msg) =>
      (update_task now ts taskId TaskStatus.failed msg "" "" "" []).1

/-- The very first store mutation of `Worker._execute` (line 67): the pulled
task is marked `running` unconditionally — no dependency check precedes it. -/
def workerBeginTask (now : String) (tasks : List Task) (taskId : String) :
    List Task :=
  (update_task now tasks taskId TaskStatus.running "" "" "" "" []).1

/-- The queue seeding of `_main` (`ship/__main__.py`, lines 485-489): every
`pending` task is enqueued, in store order, regardless of `depends_on`. -/
def seedQueue (tasks : List Task) : List Task :=
  tasks.filter (fun t => t.status == TaskStatus.pending)

/-- The observable property claimed for the run: no task is `running` while
one of its dependencies is not `completed`. -/
def runningImpliesDepsCompleted (tasks : List Task) : Prop :=
  ∀ t ∈ tasks, t.status = TaskStatus.running →
    ∀ d ∈ t.depends_on, ∀ u ∈ tasks, u.id = d → u.status = TaskStatus.completed

instance (tasks : List Task) : Decidable (runningImpliesDepsCompleted tasks) := by
  unfold runningImpliesDepsCompleted
  infer_instance

/-! ## LLM client (`ship/claude_code.py`) -/

/-- The typed error `ClaudeError{message, partial, session_id}`. -/
structure ClaudeErr where
  message : String
  partText : String := ""
  sessionId : String := ""
deriving DecidableEq, Repr

/-- A classified line of the stream-json output: only `result` events carry
data the client keeps; `assistant` events only feed the progress callback. -/
inductive StreamEvent
  | result (res sid sub : String)
  | assistantEv
  | otherEv
deriving DecidableEq, Repr

/-- The event-reading loop of `ClaudeCodeClient.execute`: each `result`
event overwrites `(result_text, session_id, subtype)`. -/
def foldEvents (events : List StreamEvent) : String × String × String :=
  events.foldl (fun acc e => match e with
    | .result r s sub => (r, s, sub)
    | _ => acc) ("", "", "")

/-- `ClaudeCodeClient.execute` after the subprocess interaction, as a
function of: the events read before the wall (`events`), whether the timeout
expired (`timedOut`), the process exit code, the stderr text and the timeout
in seconds.  Mirrors the classification order of the source: timeout,
non-zero exit, empty result, `error_max_turns`, success. -/
def executeModel (events : List StreamEvent) (timedOut : Bool) (exitCode : Int)
    (stderrText : String) (timeoutS : Nat) : Except ClaudeErr (String × String) :=
  let acc := foldEvents events
  let resultText := acc.1
  let sessionId := acc.2.1
  let sub := acc.2.2
  if timedOut then
    .error { message := "claude CLI timeout after " ++ toString timeoutS ++ "s",
             partText := resultText, sessionId := sessionId }
  else if exitCode ≠ 0 then
    .error { message := "claude CLI failed (exit " ++ toString exitCode ++ "): " ++
               (if stderrText ≠ "" then stderrText
                else if resultText ≠ "" then resultText
                else "exit " ++ toString exitCode),
             partText := resultText, sessionId := sessionId }
  else if resultText = "" then
    .error { message := "claude CLI returned empty output", sessionId := sessionId }
  else if sub = "error_max_turns" then
    .error { message := "reached max turns", partText := resultText,
             sessionId := sessionId }
  else .ok (resultText, sessionId)

/-! ## Validator (`ship/validator.py`) -/

/-- `ValidationResult{accept, gaps, project_md}`. -/
structure ValidationResult where
  accept : Bool
  gaps : List String
  project_md : String
deriving DecidableEq, Repr

/-- The bullet characters stripped from `<gaps>` block lines:
`line.strip().strip("-*• ")`. -/
def gapBulletChar (c : Char) : Bool :=
  c == '-' || c == '*' || c == Char.ofNat 8226 || c == ' '

/-- The `<decision>` extraction of `Validator._parse`: stripped, lowered,
empty when absent. -/
def validatorDecision (text : String) : String :=
  ((searchTag "<decision>" "</decision>" text).map
    (fun d => lowerS (stripWS d))).getD ""

/-- The `<gap>` items of `Validator._parse`: stripped, empties dropped. -/
def validatorGaps0 (text : String) : List String :=
  ((findAllTags "<gap>" "</gap>" text).map stripWS).filter (fun g => g ≠ "")

/-- The `<gaps>`-block line fallback of `Validator._parse`: the block is
stripped, split into lines, each line stripped then bullet-stripped,
empties dropped; `[]` when the block is absent. -/
def validatorGapsBlock (text : String) : List String :=
  match searchTag "<gaps>" "</gaps>" text with
  | some blk =>
    ((splitOnCharS '\n' (stripWS blk)).map
      (fun l => ⟨stripC gapBulletChar (stripWS l).data⟩)).filter (fun l => l ≠ "")
  | none => []

/-- `Validator._parse`: decision, `<gap>` items, `<project>`, and for a
reject without gaps the `<gaps>`-block line fallback followed by the
synthesized gap "rejected without explanation (LLM parse failure)". -/
def validatorParse (text : String) : ValidationResult :=
  let accept := validatorDecision text == "accept"
  { accept := accept,
    gaps :=
      if accept = false ∧ validatorGaps0 text = [] then
        (if validatorGapsBlock text = [] then
          ["rejected without explanation (LLM parse failure)"]
         else validatorGapsBlock text)
      else validatorGaps0 text,
    project_md := ((searchTag "<project>" "</project>" text).map stripWS).getD "" }

/-- The retry loop of `Validator.validate` (`for attempt in range(1 +
max_retries)`): `responses n` is the LLM reply of attempt `n`; a reject with
an empty gap list retries while attempts remain. -/
def validateFrom (responses : Nat → String) : Nat → Nat → ValidationResult
  | attempt, 0 => validatorParse (responses attempt)
  | attempt, fuel + 1 =>
    let parsed := validatorParse (responses attempt)
    if parsed.accept = false ∧ parsed.gaps = [] then
      validateFrom responses (attempt + 1) fuel
    else parsed

/-- `Validator.validate` with the default `max_retries = 2`. -/
def validateModel (responses : Nat → String) : ValidationResult :=
  validateFrom responses 0 2

/-! ## Planner (`ship/planner.py`) -/

/-- The `finditer(r"<task(?=[\s>])([^>]*?)>(.*?)</task>", text, DOTALL)`
scan: at each `<task` whose following character is whitespace or `>`, the
attributes run to the first `>` and the body to the first `</task>` after
it; scanning resumes past the match.  A position whose lookahead fails is
skipped.  The `none` arms are exact: a missing `>` (resp. `</task>`) after
this position also dooms every later candidate start. -/
def plannerScan : Nat → List Char → List (List Char × List Char)
  | 0, _ => []
  | fuel + 1, s =>
    match strFindC "<task".data s with
    | none => []
    | some i =>
      let after := s.drop (i + 5)
      match after with
      | [] => []
      | c :: _ =>
        if pyIsSpace c || c == '>' then
          match strFindC ['>'] after with
          | none => []
          | some j =>
            let attrs := after.take j
            let rest := after.drop (j + 1)
            match strFindC "</task>".data rest with
            | none => []
            | some k =>
              (attrs, rest.take k) :: plannerScan fuel (rest.drop (k + 7))
        else plannerScan fuel (s.drop (i + 1))

/-- One `<task>` match of `Planner._parse_xml`: short descriptions are
discarded; `worker` and `depends` attributes are extracted; `depends` is
split on commas, stripped, and kept when all-digits. -/
def plannerEntry (m : List Char × List Char) : Option (String × String × List Nat) :=
  let desc := stripWS ⟨m.2⟩
  if desc = "" ∨ desc.length ≤ 5 then none
  else
    let attrs : String := ⟨m.1⟩
    let workerAttr := ((searchTag "worker=\"" "\"" attrs)).getD "auto"
    let dependsStr := ((searchTag "depends=\"" "\"" attrs)).getD ""
    let indices := (splitOnCharS ',' dependsStr).filterMap (fun p =>
      let q := stripWS p
      if isDigitsS q then some (natOfDigitsS q) else none)
    some (desc, workerAttr, indices)

/-- Id of the task at position `j` (used by the dependency resolution). -/
def idAt (ts : List Task) (j : Nat) : String :=
  ((ts.get? j).map (fun t => t.id)).getD ""

/-- The dependency-resolution pass of `Planner._parse_xml`: for task `i`,
append `tasks[idx - 1].id` for every 1-based `idx` in its `depends` list
that is in range and not a self-reference. -/
def plannerResolve (base : List Task) (deps : List (List Nat)) : List Task :=
  (base.zip deps).enum.map (fun ie =>
    { ie.2.1 with depends_on := ie.2.1.depends_on ++
        ((ie.2.2.filter
            (fun idx => 1 ≤ idx && idx ≤ base.length && !(idx - 1 == ie.1))).map
          (fun idx => idAt base (idx - 1))) })

/-- `Planner._parse_xml`, task part: build the task records (ids are drawn
from `idGen`, the embedding of `uuid.uuid4()` freshness), then resolve the
1-based `depends` indices to ids, dropping out-of-range indices and
self-references. -/
def plannerParseTasks (idGen : Nat → String) (text : String) : List Task :=
  let entries := (plannerScan (text.data.length + 1) text.data).filterMap plannerEntry
  plannerResolve
    (entries.enum.map (fun e =>
      ({ id := idGen e.1, description := e.2.1, files := [],
         status := TaskStatus.pending, worker := e.2.2.1 } : Task)))
    (entries.map (fun e => e.2.2))

/-! ## Relations used by the theorems -/

/-- The ids of a task list (the keys of the `StateManager.tasks` dict). -/
def taskIds (ts : List Task) : List String := ts.map (fun t => t.id)

/-- How `cascade_failure` may evolve a single task record: either untouched,
or a `pending`/`running` task becomes `failed` with a `cascade:`-prefixed
error and every other field except `status`, `error` and `completed_at`
preserved. -/
def cascadeRel (t t' : Task) : Prop :=
  t' = t ∨
    ((t.status = TaskStatus.pending ∨ t.status = TaskStatus.running) ∧
      t'.status = TaskStatus.failed ∧ is_cascade_error t'.error = true ∧
      t'.id = t.id ∧ t'.description = t.description ∧ t'.files = t.files ∧
      t'.created_at = t.created_at ∧ t'.started_at = t.started_at ∧
      t'.retries = t.retries ∧ t'.result = t.result ∧
      t'.session_id = t.session_id ∧ t'.depends_on = t.depends_on ∧
      t'.followups = t.followups ∧ t'.worker = t.worker)

/-- The store mutations the engine performs on the task list, as invoked by
the code.  `add` carries `retries = 0` because every `Task(...)` creation
site in the repo (planner, refiner, replanner, judge adversarial round)
leaves `retries` at its dataclass default 0, and loading persisted tasks
aborts (`loadTasks` always errors), so no other task enters the store.
The judge tick is one step: the judge is the only caller of `retry_task` and
`cascade_failure`, runs them sequentially over its snapshot, and the
interleaved worker calls are `update_task` calls, which never change
`retries` or ids, so folding them into separate `update` steps is sound. -/
inductive StoreStep : List Task → List Task → Prop
  | add (tasks : List Task) (t : Task) (h0 : t.retries = 0) :
      StoreStep tasks (add_task tasks t)
  | update (now : String) (tasks : List Task) (tid : String) (st : TaskStatus)
      (error result summaryArg sessionId : String) (followups : List String) :
      StoreStep tasks
        (update_task now tasks tid st error result summaryArg sessionId followups).1
  | tick (now : String) (advIds : List String) (tasks : List Task) :
      StoreStep tasks (judgeRetryCascade now advIds tasks)
  | cascade (now : String) (tasks : List Task) (tid : String) :
      StoreStep tasks (cascade_failure now tasks tid).1
  | reset (tasks : List Task) : StoreStep tasks (reset_interrupted_tasks tasks)

/-- Task-store states reachable in a run: the store starts empty (a fresh
run; continuing from a persisted non-empty store is impossible because
`_load` raises, see `loadTasks`) and evolves by `StoreStep`s. -/
inductive ReachableTasks : List Task → Prop
  | init : ReachableTasks []
  | step {s s' : List Task} : ReachableTasks s → StoreStep s s' → ReachableTasks s'

/-! ## Theorems -/

/-- Claim C1: the spec requires that a task never enters `running` while a
dependency is not `completed`.  The code has no such gate: `_main` enqueues
every `pending` task regardless of `depends_on`, and `Worker._execute` marks
a pulled task `running` unconditionally.  With `A` pending and `B` pending
depending on `A`, `B` is enqueued at startup and a worker that pulls `B`
puts the store in a state violating the claimed invariant. -/
theorem c1_no_dependency_gate :
    let tA : Task := { id := "A", description := "write module A", files := [],
                       status := TaskStatus.pending }
    let tB : Task := { id := "B", description := "write module B", files := [],
                       status := TaskStatus.pending, depends_on := ["A"] }
    seedQueue [tA, tB] = [tA, tB] ∧
    workerBeginTask "T2" [tA, tB] "B" =
      [tA, { tB with status := TaskStatus.running, started_at := some "T2" }] ∧
    ¬ runningImpliesDepsCompleted (workerBeginTask "T2" [tA, tB] "B") := by
  decide

/-- Claim C2 counterexample: `cascade_failure` does not mark every
`pending`/`running` transitive dependent.  With `A` failed, `B` completed
depending on `A`, and `C` pending depending on `B`, the BFS stops at the
completed `B`: the call returns no cascaded ids and leaves `C` pending, yet
`C` is a pending task transitively depending on `A`. -/
theorem c2_counterexample_completed_blocks_cascade :
    let tA : Task := { id := "A", description := "build core lib", files := [],
                       status := TaskStatus.failed }
    let uB : Task := { id := "B", description := "build service B", files := [],
                       status := TaskStatus.completed, depends_on := ["A"] }
    let tC : Task := { id := "C", description := "build client C", files := [],
                       status := TaskStatus.pending, depends_on := ["B"] }
    cascade_failure "T1" [tA, uB, tC] "A" = ([tA, uB, tC], []) := by
  decide

/-- Claim C4: on the claimed example reply the task does NOT end
`completed` with summary "added tests": `update_task` assigns
`task.summary`, which the slots dataclass `Task` does not declare, so the
call raises `AttributeError` and the worker's generic handler re-records the
task as `failed` carrying that message (the parser itself does extract
status `done` and summary "added tests"). -/
theorem c4_worker_summary_attribute_error :
    let tX : Task := { id := "X", description := "add tests", files := [],
                       status := TaskStatus.pending }
    workerRecord "T1" [tX] "X"
        "did work\n<summary>added tests</summary>\n<status>done</status>" "sess1" "" =
      [{ tX with status := TaskStatus.failed,
                 error := "AttributeError: 'Task' object has no attribute 'summary'",
                 result := "did work\n<summary>added tests</summary>\n<status>done</status>",
                 completed_at := some "T1" }] ∧
    parse_output "did work\n<summary>added tests</summary>\n<status>done</status>" =
      ("done", [], "added tests") ∧
    workerRecord "T1" [tX] "X"
        "\n<status>partial</status>\n<followups>\n<task>finish API</task>\n</followups>"
        "sess1" "" =
      [{ tX with status := TaskStatus.failed, error := "worker reported partial",
                 result := "\n<status>partial</status>\n<followups>\n<task>finish API</task>\n</followups>",
                 followups := ["finish API"], completed_at := some "T1" }] := by
  refine ⟨by decide, by decide, by decide⟩

/-- Claim C5: the serialize/reload round trip never succeeds.  `to_dict`
emits no `summary` key, `_load` injects a default `summary` entry into every
loaded record, and `Task(**task_data)` (a slots dataclass with no `summary`
field) then raises `TypeError`, aborting the load of any saved task list. -/
theorem c5_roundtrip_load_fails :
    ∀ (t : Task) (rest : List (List (String × JValue))),
      loadTasks (toDict t :: rest) =
        Except.error "TypeError: __init__() got an unexpected keyword argument summary" := by
  intro t rest
  obtain ⟨i, de, fs, st, ca, sa, coa, r, e, res, sid, dep, fu, w⟩ := t
  cases sa <;> cases coa <;> rfl

/-- Claim C6: `StateManager.init_work` accepts only `design_file` and
`goal_text`, so the call `_main` makes with `spec_hash=...` and
`override_prompt=...` keyword arguments raises `TypeError`; and the
`WorkState` that `init_work` itself builds records neither value — it has no
such fields. -/
theorem c6_init_work_records_no_spec_hash :
    (∀ now design_file combined_goal spec_h override_p : String,
      mainInitWorkCall now design_file combined_goal spec_h override_p =
        Except.error "TypeError: init_work() got an unexpected keyword argument spec_hash") ∧
    (∀ now design_file goal_text : String,
      init_work now design_file goal_text =
        { design_file := design_file, goal_text := goal_text, is_complete := false,
          project_context := "", execution_mode := "parallel",
          started_at := now, last_updated_at := now }) := by
  exact ⟨fun _ _ _ _ _ => rfl, fun _ _ _ => rfl⟩

/-- Claim C8 counterexample: on a reject with no gaps the validator does not
retry and does not synthesize the gap string "rejected without explanation":
`_parse` itself synthesizes "rejected without explanation (LLM parse
failure)" on the first attempt, so `validate` returns immediately (a retry
would have returned the accepting second response). -/
theorem c8_counterexample_no_retry_different_gap_text :
    let responses : Nat → String := fun n =>
      if n = 0 then "<decision>reject</decision>" else "<decision>accept</decision>"
    validateModel responses =
      { accept := false,
        gaps := ["rejected without explanation (LLM parse failure)"],
        project_md := "" } ∧
    (validateModel responses).gaps ≠ ["rejected without explanation"] := by
  refine ⟨by decide, by decide⟩

/-- Claim C9 counterexample: `depends` indices are not restricted to
earlier positions.  The first task may depend on the second, so two tasks
can depend on each other — a cycle — contradicting "references only tasks at
earlier 1-based positions". -/
theorem c9_counterexample_forward_reference_cycle :
    plannerParseTasks (fun n => toString n)
        "<task depends=\"2\">first task A</task><task depends=\"1\">second task B</task>" =
      [{ id := "0", description := "first task A", files := [],
         status := TaskStatus.pending, depends_on := ["1"] },
       { id := "1", description := "second task B", files := [],
         status := TaskStatus.pending, depends_on := ["0"] }] := by
  decide

/-- Claim C7: every error raised by `ClaudeCodeClient.execute` — timeout,
non-zero exit, empty result, max-turns — carries the result text accumulated
so far (`partial`) and the last session id seen in the event stream; the
timeout error's message names the timeout in seconds; and a successful call
returns exactly the accumulated `(result, session_id)` pair. -/
theorem c7_llm_errors_carry_context :
    ∀ (events : List StreamEvent) (timedOut : Bool) (exitCode : Int)
      (stderrText : String) (timeoutS : Nat),
      (∀ e : ClaudeErr,
        executeModel events timedOut exitCode stderrText timeoutS = Except.error e →
          e.partText = (foldEvents events).1 ∧ e.sessionId = (foldEvents events).2.1) ∧
      (timedOut = true →
        executeModel events timedOut exitCode stderrText timeoutS =
          Except.error
            { message := "claude CLI timeout after " ++ toString timeoutS ++ "s",
              partText := (foldEvents events).1,
              sessionId := (foldEvents events).2.1 }) ∧
      (∀ p : String × String,
        executeModel events timedOut exitCode stderrText timeoutS = Except.ok p →
          p = ((foldEvents events).1, (foldEvents events).2.1)) := by
  intro events timedOut exitCode stderrText timeoutS
  unfold executeModel
  dsimp only
  split_ifs with h1 h2 h3 h4 h5 h6
  · exact ⟨fun e he => by injection he with h; subst h; exact ⟨rfl, rfl⟩,
           fun _ => rfl, fun p hp => by cases hp⟩
  · exact ⟨fun e he => by injection he with h; subst h; exact ⟨rfl, rfl⟩,
           fun ht => absurd ht h1, fun p hp => by cases hp⟩
  · exact ⟨fun e he => by injection he with h; subst h; exact ⟨rfl, rfl⟩,
           fun ht => absurd ht h1, fun p hp => by cases hp⟩
  · exact ⟨fun e he => by injection he with h; subst h; exact ⟨rfl, rfl⟩,
           fun ht => absurd ht h1, fun p hp => by cases hp⟩
  · exact ⟨fun e he => by injection he with h; subst h; exact ⟨h5.symm, rfl⟩,
           fun ht => absurd ht h1, fun p hp => by cases hp⟩
  · exact ⟨fun e he => by injection he with h; subst h; exact ⟨rfl, rfl⟩,
           fun ht => absurd ht h1, fun p hp => by cases hp⟩
  · refine ⟨fun e he => ?_, fun ht => absurd ht h1, fun p hp => ?_⟩
    · exact absurd he (by simp)
    · injection hp with h
      exact h.symm

/-- Witness for C7: concrete timeout run — the error carries the partial
output "out" and session "s1", and the message names the 300-second
timeout. -/
theorem c7_llm_errors_carry_context_witness :
    (true = true) ∧
    executeModel [StreamEvent.result "out" "s1" ""] true 0 "" 300 =
      Except.error { message := "claude CLI timeout after 300s",
                     partText := "out", sessionId := "s1" } :=
  ⟨rfl, by
    have h := (c7_llm_errors_carry_context [StreamEvent.result "out" "s1" ""]
      true 0 "" 300).2.1 rfl
    simpa using h⟩


/-- Helper: a reject parse never has an empty gap list — `_parse` itself
falls back to the `<gaps>` block lines or synthesizes a gap. -/
theorem validatorParse_reject_gaps_ne_nil (text : String)
    (h : (validatorParse text).accept = false) : (validatorParse text).gaps ≠ [] := by
  unfold validatorParse at h ⊢
  dsimp only at h ⊢
  by_cases hg : validatorGaps0 text = []
  · rw [if_pos ⟨h, hg⟩]
    by_cases hb : validatorGapsBlock text = []
    · rw [if_pos hb]
      simp
    · rw [if_neg hb]
      exact hb
  · rw [if_neg (fun hc => hg hc.2)]
    exact hg

/-- Claim C8 (amended): the parser itself guarantees a reject always has a
non-empty gap list — on a reject with no usable `<gap>` tags it first falls
back to `<gaps>`-block lines and otherwise synthesizes the single gap
"rejected without explanation (LLM parse failure)" — so `validate`'s retry
branch is unreachable and the first LLM response is always returned. -/
theorem c8_validator_amended :
    (∀ responses : Nat → String,
      validateModel responses = validatorParse (responses 0)) ∧
    (∀ text : String,
      (validatorParse text).accept = false → (validatorParse text).gaps ≠ []) ∧
    (∀ text : String,
      (validatorParse text).accept = false → validatorGaps0 text = [] →
      validatorGapsBlock text = [] →
      (validatorParse text).gaps =
        ["rejected without explanation (LLM parse failure)"]) := by
  refine ⟨?_, validatorParse_reject_gaps_ne_nil, ?_⟩
  · intro responses
    unfold validateModel validateFrom
    by_cases ha : (validatorParse (responses 0)).accept = false
    · rw [if_neg (fun hc => validatorParse_reject_gaps_ne_nil _ ha hc.2)]
    · rw [if_neg (fun hc => ha hc.1)]
  · intro text h h0 hb
    unfold validatorParse at h ⊢
    dsimp only at h ⊢
    rw [if_pos ⟨h, h0⟩, if_pos hb]

/-- Witness for C8 (amended): on the concrete reject reply with no gaps the
parse is a reject, its gap list is non-empty (the synthesized string), and
`validate` returns the first parse unchanged. -/
theorem c8_validator_amended_witness :
    ((validatorParse "<decision>reject</decision>").accept = false) ∧
    (validatorParse "<decision>reject</decision>").gaps ≠ [] ∧
    validateModel (fun _ => "<decision>reject</decision>") =
      validatorParse "<decision>reject</decision>" :=
  ⟨by decide, c8_validator_amended.2.1 "<decision>reject</decision>" (by decide),
   c8_validator_amended.1 (fun _ => "<decision>reject</decision>")⟩

/-- Helper: `applyUpdate` always installs exactly the requested status. -/
theorem applyUpdate_status (now : String) (st : TaskStatus)
    (e r sid : String) (fu : List String) (t : Task) :
    (applyUpdate now st e r sid fu t).status = st := by
  unfold applyUpdate
  dsimp only
  split_ifs <;> rfl

/-- Helper: `applyUpdate` never changes `retries`. -/
theorem applyUpdate_retries (now : String) (st : TaskStatus)
    (e r sid : String) (fu : List String) (t : Task) :
    (applyUpdate now st e r sid fu t).retries = t.retries := by
  unfold applyUpdate
  dsimp only
  split_ifs <;> rfl

/-- Helper: `applyUpdate` never changes `id`. -/
theorem applyUpdate_id (now : String) (st : TaskStatus)
    (e r sid : String) (fu : List String) (t : Task) :
    (applyUpdate now st e r sid fu t).id = t.id := by
  unfold applyUpdate
  dsimp only
  split_ifs <;> rfl

/-- Helper: the crashed update prefix never changes `retries`. -/
theorem applyUpdateCrashed_retries (st : TaskStatus) (e r : String) (t : Task) :
    (applyUpdateCrashed st e r t).retries = t.retries := by
  unfold applyUpdateCrashed
  dsimp only
  split_ifs <;> rfl

/-- Helper: the crashed update prefix never changes `id`. -/
theorem applyUpdateCrashed_id (st : TaskStatus) (e r : String) (t : Task) :
    (applyUpdateCrashed st e r t).id = t.id := by
  unfold applyUpdateCrashed
  dsimp only
  split_ifs <;> rfl

/-- Claim C10: `update_task` performs no transition-validity check: for any
stored task (any current status — completed and cascade-failed included) a
`running` update sets the status back to `running` and re-stamps
`started_at`, and any requested status is installed unconditionally. -/
theorem c10_update_task_unconditional :
    ∀ (now : String) (tasks : List Task) (i : Nat) (t : Task),
      tasks[i]? = some t →
      ((t.status ≠ TaskStatus.running →
        (update_task now tasks t.id TaskStatus.running "" "" "" "" []).1[i]? =
          some { t with status := TaskStatus.running, started_at := some now }) ∧
       ∀ s : TaskStatus,
         ((update_task now tasks t.id s "" "" "" "" []).1[i]?.map Task.status) =
           some s) := by
  intro now tasks i t ht
  have hmem : t ∈ tasks := by
    obtain ⟨hlt, heq⟩ := List.getElem?_eq_some.mp ht
    exact heq ▸ List.getElem_mem hlt
  have hany : tasks.any (fun x => x.id == t.id) = true := by
    rw [List.any_eq_true]
    exact ⟨t, hmem, by simp⟩
  constructor
  · intro hrun
    unfold update_task
    rw [if_pos hany, if_pos rfl]
    dsimp only
    rw [List.getElem?_map, ht]
    have happ : applyUpdate now TaskStatus.running "" "" "" [] t =
        { t with status := TaskStatus.running, started_at := some now } := by
      simp [applyUpdate, hrun]
    simp [happ]
  · intro s
    unfold update_task
    rw [if_pos hany, if_pos rfl]
    dsimp only
    rw [List.getElem?_map, ht]
    simp [applyUpdate_status]

/-- Witness for C10: a `completed` task carrying a `cascade:` error is
pushed straight back to `running` with `started_at` re-stamped. -/
theorem c10_update_task_unconditional_witness :
    let tdone : Task := { id := "D", description := "ship feature D", files := [],
                          status := TaskStatus.completed,
                          error := "cascade: dependency A failed" }
    (tdone.status ≠ TaskStatus.running →
      (update_task "T9" [tdone] tdone.id TaskStatus.running "" "" "" "" []).1[0]? =
        some { tdone with status := TaskStatus.running, started_at := some "T9" }) ∧
    ∀ s : TaskStatus,
      ((update_task "T9" [tdone] tdone.id s "" "" "" "" []).1[0]?.map Task.status) =
        some s := by
  intro tdone
  exact c10_update_task_unconditional "T9" [tdone] 0 tdone rfl


/-- Helper: `cascadeRel` is reflexive. -/
theorem cascadeRel_self (t : Task) : cascadeRel t t := Or.inl rfl

/-- Helper: pointwise reflexivity of `cascadeRel` on lists. -/
theorem forall2_cascadeRel_refl : ∀ l : List Task, List.Forall₂ cascadeRel l l
  | [] => List.Forall₂.nil
  | t :: ts => List.Forall₂.cons (cascadeRel_self t) (forall2_cascadeRel_refl ts)

/-- Helper: `cascadeRel` composes — a task cascaded once is `failed`, so a
later round can only leave it unchanged. -/
theorem cascadeRel_trans {a b c : Task} (h1 : cascadeRel a b) (h2 : cascadeRel b c) :
    cascadeRel a c := by
  rcases h1 with rfl | h1
  · exact h2
  · rcases h2 with rfl | h2
    · exact Or.inr h1
    · rcases h2.1 with hb | hb <;> rw [h1.2.1] at hb <;> cases hb

/-- Helper: pointwise composition of `cascadeRel`. -/
theorem forall2_cascadeRel_trans {a b c : List Task}
    (h1 : List.Forall₂ cascadeRel a b) (h2 : List.Forall₂ cascadeRel b c) :
    List.Forall₂ cascadeRel a c := by
  induction h1 generalizing c with
  | nil => cases h2; exact List.Forall₂.nil
  | cons hab _ ih =>
    cases h2 with
    | cons hbc h2' => exact List.Forall₂.cons (cascadeRel_trans hab hbc) (ih h2')

/-- Helper: the cascade error text carries the `cascade:` sentinel. -/
theorem is_cascade_error_cascadeText (fid : String) :
    is_cascade_error (cascadeText fid) = true := rfl

/-- Helper: one marking pass evolves every task by `cascadeRel`. -/
theorem cascadeMark_forall2 (now fid : String) :
    ∀ ts : List Task, List.Forall₂ cascadeRel ts (cascadeMark now fid ts).1 := by
  intro ts
  induction ts with
  | nil => exact List.Forall₂.nil
  | cons t ts ih =>
    unfold cascadeMark
    dsimp only
    split_ifs with h
    · exact List.Forall₂.cons
        (Or.inr ⟨h.2, rfl, is_cascade_error_cascadeText fid, rfl, rfl, rfl, rfl,
          rfl, rfl, rfl, rfl, rfl, rfl, rfl⟩) ih
    · exact List.Forall₂.cons (cascadeRel_self t) ih

/-- Helper: the whole BFS loop evolves every task by `cascadeRel`. -/
theorem cascadeAux_forall2 (now : String) :
    ∀ (fuel : Nat) (queue : List String) (ts : List Task) (acc : List String),
      List.Forall₂ cascadeRel ts (cascadeAux now fuel queue ts acc).1 := by
  intro fuel
  induction fuel with
  | zero => intro queue ts acc; exact forall2_cascadeRel_refl ts
  | succ n ih =>
    intro queue ts acc
    cases queue with
    | nil => exact forall2_cascadeRel_refl ts
    | cons fid rest =>
      exact forall2_cascadeRel_trans (cascadeMark_forall2 now fid ts) (ih _ _ _)

/-- Claim C2 (amended): `cascade_failure` only ever turns `pending`/`running`
tasks into `failed` tasks whose error carries the `cascade:` sentinel,
leaving every other task (completed and already-failed ones included)
untouched — propagation stops at tasks that are not `pending`/`running`
rather than reaching every transitive dependent.  On the spec's example
(A failed; B pending on A; C pending on B; D completed on A) it returns
`[B.id, C.id]`, fails B and C with `cascade:` errors, and leaves D alone. -/
theorem c2_cascade_amended :
    (∀ (now tid : String) (tasks : List Task),
      List.Forall₂ cascadeRel tasks (cascade_failure now tasks tid).1) ∧
    (let tA : Task := { id := "A", description := "build core lib", files := [],
                        status := TaskStatus.failed }
     let tB : Task := { id := "B", description := "build service B", files := [],
                        status := TaskStatus.pending, depends_on := ["A"] }
     let tC : Task := { id := "C", description := "build client C", files := [],
                        status := TaskStatus.pending, depends_on := ["B"] }
     let tD : Task := { id := "D", description := "document module D", files := [],
                        status := TaskStatus.completed, depends_on := ["A"] }
     cascade_failure "T1" [tA, tB, tC, tD] "A" =
       ([tA,
         { tB with status := TaskStatus.failed,
                   error := "cascade: dependency A failed",
                   completed_at := some "T1" },
         { tC with status := TaskStatus.failed,
                   error := "cascade: dependency B failed",
                   completed_at := some "T1" },
         tD],
        ["B", "C"])) :=
  ⟨fun now tid tasks => cascadeAux_forall2 now (tasks.length + 1) [tid] tasks [],
   by decide⟩

/-- Helper: length of the resolved task list. -/
theorem plannerResolve_length (base : List Task) (deps : List (List Nat)) :
    (plannerResolve base deps).length = min base.length deps.length := by
  simp [plannerResolve]

/-- Helper: the resolved record at position `j`. -/
theorem plannerResolve_get (base : List Task) (deps : List (List Nat)) (j : Nat)
    (hj : j < (plannerResolve base deps).length) :
    ∃ hb : j < base.length, ∃ hd : j < deps.length,
      (plannerResolve base deps).get ⟨j, hj⟩ =
        { base.get ⟨j, hb⟩ with depends_on :=
            (base.get ⟨j, hb⟩).depends_on ++
              (((deps.get ⟨j, hd⟩).filter
                  (fun idx => 1 ≤ idx && idx ≤ base.length && !(idx - 1 == j))).map
                (fun idx => idAt base (idx - 1))) } := by
  have hj' := hj
  rw [plannerResolve_length, lt_min_iff] at hj'
  refine ⟨hj'.1, hj'.2, ?_⟩
  unfold plannerResolve
  rw [List.get_eq_getElem]
  rw [List.getElem_map, List.getElem_enum, List.getElem_zip]
  rw [List.get_eq_getElem, List.get_eq_getElem]

/-- Helper: validity of resolved dependencies over any base/deps pair of
equal length whose base tasks start with empty `depends_on`. -/
theorem plannerResolve_deps_valid (base : List Task) (deps : List (List Nat))
    (hlen : deps.length = base.length)
    (hdep0 : ∀ t ∈ base, t.depends_on = ([] : List String))
    (i : Nat) (hi : i < (plannerResolve base deps).length) (d : String)
    (hd : d ∈ ((plannerResolve base deps).get ⟨i, hi⟩).depends_on) :
    ∃ j, ∃ hj : j < (plannerResolve base deps).length, j ≠ i ∧
      d = ((plannerResolve base deps).get ⟨j, hj⟩).id := by
  obtain ⟨hb, hdl, hget⟩ := plannerResolve_get base deps i hi
  rw [hget] at hd
  dsimp only at hd
  rw [hdep0 _ (List.get_mem base i hb), List.nil_append] at hd
  obtain ⟨idx, hidxmem, hidxeq⟩ := List.mem_map.mp hd
  obtain ⟨_, hcond⟩ := List.mem_filter.mp hidxmem
  simp only [Bool.and_eq_true, decide_eq_true_eq, Bool.not_eq_true',
    beq_eq_false_iff_ne, ne_eq] at hcond
  have hj : idx - 1 < (plannerResolve base deps).length := by
    rw [plannerResolve_length, hlen, Nat.min_self]
    omega
  refine ⟨idx - 1, hj, by omega, ?_⟩
  obtain ⟨hb2, hd2, hget2⟩ := plannerResolve_get base deps (idx - 1) hj
  rw [hget2, ← hidxeq]
  show idAt base (idx - 1) = (base.get ⟨idx - 1, hb2⟩).id
  unfold idAt
  rw [List.get?_eq_getElem?, List.getElem?_eq_getElem hb2]
  rw [List.get_eq_getElem]
  rfl

/-- Claim C9 (amended): every dependency the planner stores is the id of a
task at some OTHER valid position of the same plan — out-of-range indices
and self-references are dropped, but both earlier and later positions are
allowed, so acyclicity is NOT guaranteed (see the counterexample). -/
theorem c9_planner_deps_valid :
    ∀ (idGen : Nat → String) (text : String) (i : Nat)
      (hi : i < (plannerParseTasks idGen text).length) (d : String),
      d ∈ ((plannerParseTasks idGen text).get ⟨i, hi⟩).depends_on →
      ∃ j, ∃ hj : j < (plannerParseTasks idGen text).length, j ≠ i ∧
        d = ((plannerParseTasks idGen text).get ⟨j, hj⟩).id := by
  intro idGen text i hi d hd
  have hlen :
      (((plannerScan (text.data.length + 1) text.data).filterMap
          plannerEntry).map (fun e => e.2.2)).length =
      (((plannerScan (text.data.length + 1) text.data).filterMap
          plannerEntry).enum.map (fun e =>
        ({ id := idGen e.1, description := e.2.1, files := [],
           status := TaskStatus.pending, worker := e.2.2.1 } : Task))).length := by
    simp
  have hdep0 : ∀ t ∈ (((plannerScan (text.data.length + 1) text.data).filterMap
      plannerEntry).enum.map (fun e =>
        ({ id := idGen e.1, description := e.2.1, files := [],
           status := TaskStatus.pending, worker := e.2.2.1 } : Task))),
      t.depends_on = ([] : List String) := by
    intro t ht
    obtain ⟨e, _, rfl⟩ := List.mem_map.mp ht
    rfl
  exact plannerResolve_deps_valid _ _ hlen hdep0 i hi d hd

/-- Witness for C9 (amended): on the concrete two-task plan, the dependency
"1" stored for the first task is the id of the task at the (later) second
position. -/
theorem c9_planner_deps_valid_witness :
    ∃ j, ∃ hj : j < (plannerParseTasks (fun n => toString n)
        "<task depends=\"2\">first task A</task><task depends=\"1\">second task B</task>").length,
      j ≠ 0 ∧
        "1" = ((plannerParseTasks (fun n => toString n)
          "<task depends=\"2\">first task A</task><task depends=\"1\">second task B</task>").get
            ⟨j, hj⟩).id :=
  c9_planner_deps_valid (fun n => toString n)
    "<task depends=\"2\">first task A</task><task depends=\"1\">second task B</task>"
    0 (by decide) "1" (by decide)


/-- Helper: `cascadeRel` preserves the id. -/
theorem cascadeRel_id_eq {a b : Task} (h : cascadeRel a b) : b.id = a.id := by
  rcases h with rfl | ⟨_, _, _, hid, _⟩
  · rfl
  · exact hid

/-- Helper: `cascadeRel` preserves the retry counter. -/
theorem cascadeRel_retries_eq {a b : Task} (h : cascadeRel a b) :
    b.retries = a.retries := by
  rcases h with rfl | ⟨_, _, _, _, _, _, _, _, hret, _⟩
  · rfl
  · exact hret

/-- Helper: pointwise `cascadeRel` preserves the id list. -/
theorem forall2_cascadeRel_ids {a b : List Task}
    (h : List.Forall₂ cascadeRel a b) : taskIds b = taskIds a := by
  induction h with
  | nil => rfl
  | cons hab _ ih => simp [taskIds, cascadeRel_id_eq hab, taskIds] at ih ⊢; exact ih

/-- Helper: every task after a pointwise `cascadeRel` evolution corresponds
to an original with the same id and retry counter. -/
theorem forall2_cascadeRel_mem_right {a b : List Task}
    (h : List.Forall₂ cascadeRel a b) :
    ∀ x ∈ b, ∃ y ∈ a, x.id = y.id ∧ x.retries = y.retries := by
  induction h with
  | nil => intro x hx; cases hx
  | cons hab _ ih =>
    intro x hx
    rcases List.mem_cons.mp hx with rfl | hx'
    · exact ⟨_, List.mem_cons_self _ _, cascadeRel_id_eq hab, cascadeRel_retries_eq hab⟩
    · obtain ⟨y, hy, hxy⟩ := ih x hx'
      exact ⟨y, List.mem_cons_of_mem _ hy, hxy⟩

/-- Helper: `cascade_failure` preserves the id list. -/
theorem cascade_failure_ids (now : String) (tasks : List Task) (tid : String) :
    taskIds (cascade_failure now tasks tid).1 = taskIds tasks :=
  forall2_cascadeRel_ids (cascadeAux_forall2 now (tasks.length + 1) [tid] tasks [])

/-- Helper: `cascade_failure` preserves ids and retry counters pointwise. -/
theorem cascade_failure_retries (now : String) (tasks : List Task) (tid : String) :
    ∀ x ∈ (cascade_failure now tasks tid).1,
      ∃ y ∈ tasks, x.id = y.id ∧ x.retries = y.retries :=
  forall2_cascadeRel_mem_right (cascadeAux_forall2 now (tasks.length + 1) [tid] tasks [])

/-- Helper: `retry_task` preserves the id list. -/
theorem retry_task_ids (tasks : List Task) (tid : String) :
    taskIds (retry_task tasks tid) = taskIds tasks := by
  unfold retry_task
  split_ifs
  · unfold taskIds
    rw [List.map_map]
    apply List.map_congr_left
    intro t _
    by_cases h : t.id = tid <;> simp [h]
  · rfl

/-- Helper: each task after `retry_task` comes from an original with the
same id, either untouched or (when its id is the retried one) with the
retry counter bumped by exactly one. -/
theorem retry_task_mem (tasks : List Task) (tid : String) :
    ∀ x ∈ retry_task tasks tid,
      ∃ y ∈ tasks, x.id = y.id ∧
        (x.retries = y.retries ∨ (y.id = tid ∧ x.retries = y.retries + 1)) := by
  unfold retry_task
  split_ifs
  · intro x hx
    obtain ⟨y, hy, rfl⟩ := List.mem_map.mp hx
    by_cases h : y.id = tid
    · exact ⟨y, hy, by simp [h], Or.inr ⟨h, by simp [h]⟩⟩
    · exact ⟨y, hy, by simp [h], Or.inl (by simp [h])⟩
  · intro x hx
    exact ⟨x, hx, rfl, Or.inl rfl⟩

/-- Helper: `update_task` preserves the id list. -/
theorem update_task_ids (now : String) (tasks : List Task) (tid : String)
    (st : TaskStatus) (e r sm sid : String) (fu : List String) :
    taskIds (update_task now tasks tid st e r sm sid fu).1 = taskIds tasks := by
  unfold update_task
  split_ifs <;>
    first
    | rfl
    | · unfold taskIds
        rw [List.map_map]
        apply List.map_congr_left
        intro t _
        by_cases h : t.id = tid <;>
          simp [h, applyUpdate_id, applyUpdateCrashed_id]

/-- Helper: `update_task` never changes any retry counter. -/
theorem update_task_retries_mem (now : String) (tasks : List Task) (tid : String)
    (st : TaskStatus) (e r sm sid : String) (fu : List String) :
    ∀ x ∈ (update_task now tasks tid st e r sm sid fu).1,
      ∃ y ∈ tasks, x.retries = y.retries := by
  unfold update_task
  split_ifs <;>
    first
    | (intro x hx; exact ⟨x, hx, rfl⟩)
    | · intro x hx
        obtain ⟨y, hy, rfl⟩ := List.mem_map.mp hx
        by_cases h : y.id = tid <;>
          · refine ⟨y, hy, ?_⟩
            simp [h, applyUpdate_retries, applyUpdateCrashed_retries]

/-- Helper: `reset_interrupted_tasks` preserves the id list. -/
theorem reset_interrupted_tasks_ids (tasks : List Task) :
    taskIds (reset_interrupted_tasks tasks) = taskIds tasks := by
  unfold reset_interrupted_tasks taskIds
  rw [List.map_map]
  apply List.map_congr_left
  intro t _
  dsimp only [Function.comp]
  split_ifs <;> rfl

/-- Helper: after startup recovery every retry counter is an original one
or zero. -/
theorem reset_interrupted_tasks_retries (tasks : List Task) :
    ∀ x ∈ reset_interrupted_tasks tasks,
      ∃ y ∈ tasks, x.retries = y.retries ∨ x.retries = 0 := by
  unfold reset_interrupted_tasks
  intro x hx
  obtain ⟨y, hy, rfl⟩ := List.mem_map.mp hx
  refine ⟨y, hy, ?_⟩
  split_ifs <;> simp


/-- Helper: the judge's retry fold preserves the id list. -/
theorem judgeFold_ids (now : String) :
    ∀ (snap state : List Task),
      taskIds (snap.foldl (judgeFoldStep now) state) = taskIds state := by
  intro snap
  induction snap with
  | nil => intro state; rfl
  | cons t rest ih =>
    intro state
    rw [List.foldl_cons, ih]
    unfold judgeFoldStep
    split_ifs
    · exact cascade_failure_ids now state t.id
    · exact retry_task_ids state t.id

/-- Helper: the judge's retry fold keeps every retry counter at most
`MAX_RETRIES`, provided the snapshot has distinct ids and agrees with the
current state on the retry counters (which holds because the judge is the
only `retry_task` caller). -/
theorem judgeFold_retries_le (now : String) :
    ∀ (snap state : List Task),
      (taskIds snap).Nodup →
      (∀ t ∈ snap, ∀ x ∈ state, x.id = t.id → x.retries = t.retries) →
      (∀ x ∈ state, x.retries ≤ MAX_RETRIES) →
      ∀ x ∈ snap.foldl (judgeFoldStep now) state, x.retries ≤ MAX_RETRIES := by
  intro snap
  induction snap with
  | nil => intro state _ _ hle x hx; exact hle x hx
  | cons t rest ih =>
    intro state hnd hsync hle
    have hnd' : (taskIds rest).Nodup := by
      have : taskIds (t :: rest) = t.id :: taskIds rest := rfl
      rw [this] at hnd
      exact hnd.of_cons
    have hhead : t.id ∉ taskIds rest := by
      have : taskIds (t :: rest) = t.id :: taskIds rest := rfl
      rw [this] at hnd
      exact (List.nodup_cons.mp hnd).1
    rw [List.foldl_cons]
    unfold judgeFoldStep
    split_ifs with hge
    · -- cascade step: ids and retries are pointwise preserved
      apply ih _ hnd' ?_ ?_
      · intro t' ht' x hx hid
        obtain ⟨y, hy, hidy, hrety⟩ := cascade_failure_retries now state t.id x hx
        rw [hrety]
        exact hsync t' (List.mem_cons_of_mem _ ht') y hy (hidy ▸ hid)
      · intro x hx
        obtain ⟨y, hy, _, hrety⟩ := cascade_failure_retries now state t.id x hx
        rw [hrety]
        exact hle y hy
    · -- retry step: only the head's id is bumped, and it was < MAX_RETRIES
      apply ih _ hnd' ?_ ?_
      · intro t' ht' x hx hid
        obtain ⟨y, hy, hidy, hcase⟩ := retry_task_mem state t.id x hx
        rcases hcase with hsame | ⟨hyid, _⟩
        · rw [hsame]
          exact hsync t' (List.mem_cons_of_mem _ ht') y hy (hidy ▸ hid)
        · exfalso
          apply hhead
          have : t'.id = t.id := by rw [← hid, hidy, hyid]
          exact this ▸ List.mem_map_of_mem (fun u => u.id) ht'
      · intro x hx
        obtain ⟨y, hy, hidy, hcase⟩ := retry_task_mem state t.id x hx
        rcases hcase with hsame | ⟨hyid, hbump⟩
        · rw [hsame]
          exact hle y hy
        · have hsyt : y.retries = t.retries :=
            hsync t (List.mem_cons_self _ _) y hy hyid
          rw [hbump, hsyt]
          omega

/-- Helper: the judge tick preserves the id list. -/
theorem judgeRetryCascade_ids (now : String) (advIds : List String)
    (tasks : List Task) :
    taskIds (judgeRetryCascade now advIds tasks) = taskIds tasks :=
  judgeFold_ids now _ tasks

/-- Helper: the judge tick keeps every retry counter at most `MAX_RETRIES`
on a store with distinct ids. -/
theorem judgeRetryCascade_retries_le (now : String) (advIds : List String)
    (tasks : List Task) (hnd : (taskIds tasks).Nodup)
    (hle : ∀ t ∈ tasks, t.retries ≤ MAX_RETRIES) :
    ∀ x ∈ judgeRetryCascade now advIds tasks, x.retries ≤ MAX_RETRIES := by
  unfold judgeRetryCascade
  apply judgeFold_retries_le
  · exact (List.Sublist.map (fun t : Task => t.id) (List.filter_sublist tasks)).nodup hnd
  · intro t ht x hx hid
    have htm : t ∈ tasks := List.mem_of_mem_filter ht
    have hxt : x = t := List.inj_on_of_nodup_map hnd hx htm hid
    rw [hxt]
  · exact hle

/-- Helper: one store step preserves the invariant — distinct ids and
bounded retry counters. -/
theorem storeStep_inv {a b : List Task} (hs : StoreStep a b)
    (hnd : (taskIds a).Nodup) (hle : ∀ t ∈ a, t.retries ≤ MAX_RETRIES) :
    (taskIds b).Nodup ∧ ∀ t ∈ b, t.retries ≤ MAX_RETRIES := by
  cases hs with
  | add tasks t h0 =>
    unfold add_task
    split_ifs with hin
    · exact ⟨hnd, hle⟩
    · constructor
      · have hnotin : t.id ∉ taskIds a := by
          intro hmem
          apply hin
          rw [List.any_eq_true]
          obtain ⟨y, hy, hyid⟩ := List.mem_map.mp hmem
          exact ⟨y, hy, by simp [hyid]⟩
        have hids : taskIds (a ++ [t]) = taskIds a ++ [t.id] := by
          simp [taskIds]
        rw [hids, List.nodup_append]
        exact ⟨hnd, List.nodup_singleton _, by simpa using hnotin⟩
      · intro x hx
        rcases List.mem_append.mp hx with hx' | hx'
        · exact hle x hx'
        · rcases List.mem_singleton.mp hx' with rfl
          rw [h0]
          exact Nat.zero_le _
  | update now tasks tid st e r sm sid fu =>
    constructor
    · rw [update_task_ids]
      exact hnd
    · intro x hx
      obtain ⟨y, hy, hr⟩ := update_task_retries_mem now a tid st e r sm sid fu x hx
      rw [hr]
      exact hle y hy
  | tick now advIds tasks =>
    exact ⟨by rw [judgeRetryCascade_ids]; exact hnd,
           judgeRetryCascade_retries_le now advIds a hnd hle⟩
  | cascade now tasks tid =>
    constructor
    · rw [cascade_failure_ids]
      exact hnd
    · intro x hx
      obtain ⟨y, hy, _, hr⟩ := cascade_failure_retries now a tid x hx
      rw [hr]
      exact hle y hy
  | reset tasks =>
    constructor
    · rw [reset_interrupted_tasks_ids]
      exact hnd
    · intro x hx
      obtain ⟨y, hy, hr⟩ := reset_interrupted_tasks_retries a x hx
      rcases hr with hr | hr
      · rw [hr]; exact hle y hy
      · rw [hr]; exact Nat.zero_le _

/-- Helper: the reachability invariant holds in every reachable store. -/
theorem reachable_inv : ∀ s, ReachableTasks s →
    (taskIds s).Nodup ∧ ∀ t ∈ s, t.retries ≤ MAX_RETRIES := by
  intro s h
  induction h with
  | init => exact ⟨List.nodup_nil, fun t ht => absurd ht (List.not_mem_nil t)⟩
  | step _ hs ih => exact storeStep_inv hs ih.1 ih.2

/-- Claim C3: in every reachable task store, every retry counter is at most
`MAX_RETRIES` (= 10) — the judge retries only tasks with `retries < 10`
(cascading the exhausted ones instead) and `retry_task` bumps the counter by
exactly one while resetting the task to `pending` with cleared error and
timestamps (second conjunct). -/
theorem c3_retries_bounded :
    (∀ s, ReachableTasks s → ∀ t ∈ s, t.retries ≤ MAX_RETRIES) ∧
    (∀ (tasks : List Task) (i : Nat) (t : Task), tasks[i]? = some t →
      (retry_task tasks t.id)[i]? =
        some { t with retries := t.retries + 1, status := TaskStatus.pending,
                      error := "", started_at := none, completed_at := none }) := by
  constructor
  · intro s h
    exact (reachable_inv s h).2
  · intro tasks i t ht
    have hmem : t ∈ tasks := by
      obtain ⟨hlt, heq⟩ := List.getElem?_eq_some.mp ht
      exact heq ▸ List.getElem_mem hlt
    have hany : tasks.any (fun x => x.id == t.id) = true := by
      rw [List.any_eq_true]
      exact ⟨t, hmem, by simp⟩
    unfold retry_task
    rw [if_pos hany, List.getElem?_map, ht]
    simp

/-- Witness for C3: a concrete reachable store — add one failed task with
zero retries, run one judge tick (which retries it) — and the bound holds;
and `retry_task` on a concrete singleton bumps the counter to one. -/
theorem c3_retries_bounded_witness :
    (∀ t ∈ judgeRetryCascade "T1" []
        (add_task [] { id := "A", description := "build module A", files := [],
                       status := TaskStatus.failed }),
      t.retries ≤ MAX_RETRIES) ∧
    (retry_task [{ id := "A", description := "build module A", files := [],
                   status := TaskStatus.failed, error := "boom" }] "A")[0]? =
      some { id := "A", description := "build module A", files := [],
             status := TaskStatus.pending, retries := 1, error := "",
             started_at := none, completed_at := none } :=
  ⟨c3_retries_bounded.1 _
      (ReachableTasks.step
        (ReachableTasks.step ReachableTasks.init (StoreStep.add [] _ rfl))
        (StoreStep.tick "T1" [] _)),
   c3_retries_bounded.2
     [{ id := "A", description := "build module A", files := [],
        status := TaskStatus.failed, error := "boom" }] 0
     { id := "A", description := "build module A", files := [],
       status := TaskStatus.failed, error := "boom" } rfl⟩

end Ship
